import Mathlib

/-!
# miniBlogTUI: navigation, rendering and overlay handling of `src/main.cpp`

A shallow embedding of the functions `handle_user_input`, `display_sidebar`,
`display_post`, `trim_whitespaces` and of the loop of `display_posts`.

Conventions of the embedding.

* A `std::string` is the list of its `char` elements; a `std::vector<Post>` is a
  list of posts, `posts.size()` is its length.
* `int` is the 32-bit two's-complement type: every value stored into an `int`
  goes through `toInt`, which wraps modulo `2^32`.  `size_t` is the 64-bit
  unsigned type: a conversion from `int` is `toSize` (reduction modulo `2^64`),
  a subtraction between `size_t` values is `sizeSub`.
* The terminal is a collaborator.  `getch()` pops the next element of the
  pending key sequence `keys`; a call of `mvwprintw` is recorded as the row,
  the column and the string handed to it.
* Division by zero and an out-of-range `operator[]` have no defined result in
  C++; they are the faults `divByZero` and `outOfRange`.  A `getch()` on an
  exhausted key sequence never returns: fault `blocked`.
-/

namespace MiniBlog

/-! ## Data model -/

abbrev Str := List Char

/-- `struct Post`. -/
structure Post where
  title : Str
  content : Str
  id : Int
  published : Str
  author_id : Int
  author_name : Str
deriving DecidableEq, Repr

/-- `enum WindowState`. -/
inductive WindowState where
  | BLOG_VIEW
  | LOGIN_VIEW
deriving DecidableEq, Repr

/-! ## Machine integers -/

/-- Largest value of `int`. -/
def INT_MAX : Int := 2147483647

/-- Value stored in an `int`: wraps modulo `2^32` into `[-2^31, 2^31)`. -/
def toInt (x : Int) : Int := (x + 2147483648) % 4294967296 - 2147483648

/-- Conversion of an `int` to `size_t`: reduction modulo `2^64`. -/
def toSize (x : Int) : Nat := (x % 18446744073709551616).toNat

/-- Subtraction `a - b` of two `size_t` values, modulo `2^64`. -/
def sizeSub (a b : Nat) : Nat := (a + 18446744073709551616 - b) % 18446744073709551616

/-- Values of type `int`. -/
def IsInt (x : Int) : Prop := -2147483648 ≤ x ∧ x ≤ 2147483647

instance (x : Int) : Decidable (IsInt x) := by
  unfold IsInt; infer_instance

/-! ## Key codes (`curses.h`, `form.h`) -/

def KEY_DOWN : Int := 258
def KEY_UP : Int := 259
def KEY_BACKSPACE : Int := 263
def KEY_F0 : Int := 264
def KEY_F (n : Int) : Int := KEY_F0 + n
def KEY_NPAGE : Int := 338
def KEY_PPAGE : Int := 339
def KEY_MAX : Int := 511
def REQ_NEXT_FIELD : Int := KEY_MAX + 5
def REQ_PREV_FIELD : Int := KEY_MAX + 6
def REQ_FIRST_FIELD : Int := KEY_MAX + 7
def REQ_END_LINE : Int := KEY_MAX + 26
def REQ_DEL_PREV : Int := KEY_MAX + 35
/-- The character `'q'`. -/
def KEY_q : Int := 113

/-! ## Program state and collaborators -/

deriving instance DecidableEq for Except

/-- Ways in which a call does not return normally. -/
inductive Fault where
  | exit
  | divByZero
  | outOfRange (i n : Nat)
  | blocked
deriving DecidableEq, Repr

/-- The locals `index`, `offset`, `sidebar_offset` of `display_posts`, the
vector `posts`, the globals `current_state` and `popup_window` (non-null or
null), the keys that `getch()` will deliver, the number of collaborator calls
made so far and whether the file `token` can be opened. -/
structure State where
  posts : List Post
  index : Int
  offset : Int
  sidebar_offset : Int
  current_state : WindowState
  popup_window : Bool
  keys : List Int
  calls : Nat
  token_file : Bool
deriving DecidableEq, Repr

/-- Collaborators: the content service, the form library working on forms of
type `F`, and the size of `stdscr`.  The service answers are indexed by the
number of collaborator calls made before. -/
structure Env (F : Type) where
  fetch_and_parse_posts : Nat → List Post
  login_and_save_token : Nat → Str → Str → Bool
  new_form : Nat → F
  form_driver : F → Int → F
  field_buffer : F → Nat → Str
  max_y : Int
  max_x : Int

/-! ## `trim_whitespaces` -/

/-- `std::isspace` in the C locale. -/
def isspace (c : Char) : Bool :=
  c = ' ' || c = '\t' || c = '\n' || c.toNat = 11 || c.toNat = 12 || c = '\r'

/-- `trim_whitespaces`: erase leading, then trailing white space. -/
def trim_whitespaces (str : Str) : Str :=
  let s := str.dropWhile isspace
  (s.reverse.dropWhile isspace).reverse

/-! ## `display_sidebar` -/

/-- One `mvwprintw` of `display_sidebar`: the row `i`, the position
`i + offset` converted to `size_t` used in `posts[i + offset]`, the printed
title and whether `A_REVERSE` is on. -/
structure SidebarRow where
  row : Int
  src : Nat
  text : Str
  highlight : Bool
deriving DecidableEq, Repr

/-- Title shown in the sidebar: cut to 20 characters plus `...` when longer. -/
def sidebar_title (title : Str) : Str :=
  if title.length > 20 then title.take 20 ++ ['.', '.', '.'] else title

/-- The `for` loop of `display_sidebar`, from the counter value `i` on. -/
def sidebar_loop (posts : List Post) (current_index offset max_y : Int) (i : Int) :
    List SidebarRow :=
  if h : i < max_y ∧ toSize (toInt (i + offset)) < posts.length then
    { row := i
      src := toSize (toInt (i + offset))
      text := sidebar_title (posts.get ⟨toSize (toInt (i + offset)), h.2⟩).title
      highlight := decide (toInt (i + offset) = current_index) }
      :: sidebar_loop posts current_index offset max_y (i + 1)
  else []
termination_by (max_y - i).toNat
decreasing_by omega

/-- `display_sidebar` on a window of `max_y` rows. -/
def display_sidebar (posts : List Post) (current_index offset max_y : Int) :
    List SidebarRow :=
  sidebar_loop posts current_index offset max_y 0

/-! ## `display_post` -/

/-- One `mvwprintw(content_win, row, col, "%s", text)`. -/
structure Draw where
  row : Int
  col : Int
  text : Str
deriving DecidableEq, Repr

/-- Source lines delivered by `while (std::getline(content_stream, content_line))`:
`cur` holds the characters extracted so far for the current line.  At the end
of the stream a line is delivered only when characters were extracted. -/
def getline_loop (cur : Str) : Str → List Str
  | [] => if cur = [] then [] else [cur]
  | c :: cs => if c = '\n' then cur :: getline_loop [] cs else getline_loop (cur ++ [c]) cs

/-- The tab loop: every `'\t'` is replaced by four spaces. -/
def expand_tabs : Str → Str
  | [] => []
  | c :: cs => if c = '\t' then ' ' :: ' ' :: ' ' :: ' ' :: expand_tabs cs else c :: expand_tabs cs

/-- `content_line.substr(pos, count)` for `pos <= content_line.length()`. -/
def substr (s : Str) (pos count : Nat) : Str := (s.drop pos).take count

/-- The inner `while (content_line.length() > start_index)` loop: returns the
rows printed and the value of `line` on leaving the loop. -/
def wrap_loop (max_y max_x : Int) (content_line : Str) (start_index line : Int) :
    List Draw × Int :=
  if content_line.length > toSize start_index then
    if h : line ≥ toInt (max_y - 1) then ([], line)
    else
      let r := wrap_loop max_y max_x content_line (toInt (start_index + max_x)) (line + 1)
      ({ row := line, col := 0,
         text := substr content_line (toSize start_index) (toSize max_x) } :: r.1, r.2)
  else ([], line)
termination_by (toInt (max_y - 1) - line).toNat
decreasing_by omega

/-- The outer `while (std::getline ...)` loop over the source lines. -/
def body_loop (max_y max_x : Int) : List Str → Int → List Draw × Int
  | [], line => ([], line)
  | l :: ls, line =>
    let r := wrap_loop max_y max_x (expand_tabs l) 0 line
    let r2 := body_loop max_y max_x ls r.2
    (r.1 ++ r2.1, r2.2)

/-- Body rows printed by `display_post` for the text `content`. -/
def body_rows (content : Str) (max_y max_x : Int) : List Draw :=
  (body_loop max_y max_x (getline_loop [] content) 1).1

set_option linter.unusedVariables false in
/-- `display_post` on a window of `max_y` rows and `max_x` columns: the title
row, the body rows and the footer row.  The parameter `offset` is not used by
the function body. -/
def display_post (post : Post) (offset : Int) (max_y max_x : Int) : List Draw :=
  let start_pos := toInt (sizeSub (toSize max_x) post.title.length / 2 : Nat)
  let r := body_loop max_y max_x (getline_loop [] post.content) 1
  [{ row := 0, col := if start_pos > 0 then start_pos else 0, text := post.title }]
    ++ r.1
    ++ (if r.2 < max_y then
          [{ row := toInt (max_y - 1), col := 0,
             text := "Author: ".toList ++ post.author_name ++ ", Published: ".toList
                       ++ post.published }]
        else [])

/-! ## `handle_user_input` -/

/-- The loop `while (getch() != key);`: the keys left once `key` has been read. -/
def wait_key (key : Int) : List Int → Option (List Int)
  | [] => none
  | c :: cs => if c = key then some cs else wait_key key cs

/-- The `switch (inner_ch)` of the form loops. -/
def form_key {F : Type} (E : Env F) (form : F) (inner_ch : Int) : F :=
  if inner_ch = KEY_DOWN then
    E.form_driver (E.form_driver form REQ_NEXT_FIELD) REQ_END_LINE
  else if inner_ch = KEY_UP then
    E.form_driver (E.form_driver form REQ_PREV_FIELD) REQ_END_LINE
  else if inner_ch = KEY_BACKSPACE ∨ inner_ch = 127 then
    E.form_driver form REQ_DEL_PREV
  else
    E.form_driver form inner_ch

/-- The loop `while ((inner_ch = getch()) != toggle) { switch (inner_ch) ... }`:
the form and the keys left once `toggle` has been read. -/
def form_loop {F : Type} (E : Env F) (toggle : Int) : F → List Int → Option (F × List Int)
  | _, [] => none
  | form, c :: cs =>
    if c = toggle then some (form, cs) else form_loop E toggle (form_key E form c) cs

/-- The form as the form loop leaves it after the keys `typed`, followed by the
request `REQ_FIRST_FIELD`; `fields` is the number of fields of the new form. -/
def submitted_form {F : Type} (E : Env F) (fields : Nat) (typed : List Int) : F :=
  E.form_driver (typed.foldl (form_key E) (E.new_form fields)) REQ_FIRST_FIELD

/-- Branch `case KEY_F(1)`, entered after the key has been read. -/
def case_F1 {F : Type} (E : Env F) (s : State) : Except Fault State :=
  if s.current_state = WindowState.BLOG_VIEW then
    match form_loop E (KEY_F 1) (E.new_form 2) s.keys with
    | none => .error .blocked
    | some (form, ks) =>
      let form := E.form_driver form REQ_FIRST_FIELD
      let username := trim_whitespaces (E.field_buffer form 0)
      let password := trim_whitespaces (E.field_buffer form 1)
      if E.login_and_save_token s.calls username password then
        .ok { s with keys := ks, calls := s.calls + 1, token_file := true,
                     popup_window := false, current_state := WindowState.BLOG_VIEW }
      else
        match wait_key (KEY_F 1) ks with
        | none => .error .blocked
        | some ks2 =>
          .ok { s with keys := ks2, calls := s.calls + 1,
                       popup_window := false, current_state := WindowState.BLOG_VIEW }
  else .ok s

/-- Branch `case KEY_F(2)`, entered after the key has been read. -/
def case_F2 {F : Type} (E : Env F) (s : State) : Except Fault State :=
  if s.current_state = WindowState.BLOG_VIEW then
    if ¬ s.token_file then
      match wait_key (KEY_F 2) s.keys with
      | none => .error .blocked
      | some ks => .ok { s with keys := ks, popup_window := false }
    else
      match form_loop E (KEY_F 2) (E.new_form 1) s.keys with
      | none => .error .blocked
      | some (_, ks) =>
        .ok { s with keys := ks, calls := s.calls + 1,
                     popup_window := false, current_state := WindowState.BLOG_VIEW }
  else .ok s

/-- Branch `case KEY_NPAGE`. -/
def case_NPAGE (s : State) : Except Fault State :=
  let sidebar_offset :=
    if toSize s.sidebar_offset ≤ sizeSub s.posts.length 2 then toInt (s.sidebar_offset + 1)
    else 0
  if s.posts.length = 0 then .error .divByZero
  else
    .ok { s with sidebar_offset := sidebar_offset
                 index := toInt ((toSize (toInt (s.index + 1)) % s.posts.length : Nat))
                 offset := 0 }

/-- Branch `case KEY_PPAGE`. -/
def case_PPAGE (s : State) : Except Fault State :=
  let sidebar_offset :=
    if s.sidebar_offset > 0 then toInt (s.sidebar_offset - 1)
    else toInt (sizeSub s.posts.length 1 : Nat)
  let index := toInt (s.index - 1)
  .ok { s with sidebar_offset := sidebar_offset
               index := if index < 0 then toInt (sizeSub s.posts.length 1 : Nat) else index
               offset := 0 }

/-- Branch `case KEY_F(5)`: the new list replaces `posts`, `index` and `offset`
are set to 0, the sidebar is drawn and `posts[index]` is evaluated for
`display_post`. -/
def case_F5 {F : Type} (E : Env F) (s : State) : Except Fault State :=
  let posts := E.fetch_and_parse_posts s.calls
  let index : Int := 0
  let offset : Int := 0
  let _sidebar := display_sidebar posts index s.sidebar_offset E.max_y
  match posts.get? (toSize index) with
  | none => .error (.outOfRange (toSize index) posts.length)
  | some post =>
    let _content := display_post post offset E.max_y (toInt (E.max_x - 25))
    .ok { s with posts := posts, index := index, offset := offset, calls := s.calls + 1 }

/-- `handle_user_input`: reads one key with `getch()` and dispatches on it. -/
def handle_user_input {F : Type} (E : Env F) (s0 : State) : Except Fault State :=
  match s0.keys with
  | [] => .error .blocked
  | ch :: ks =>
    let s := { s0 with keys := ks }
    if ch = KEY_F 1 then case_F1 E s
    else if ch = KEY_F 2 then case_F2 E s
    else if ch = KEY_DOWN then .ok { s with offset := toInt (s.offset + 1) }
    else if ch = KEY_UP then .ok (if s.offset > 0 then { s with offset := toInt (s.offset - 1) } else s)
    else if ch = KEY_q then .error .exit
    else if ch = KEY_NPAGE then case_NPAGE s
    else if ch = KEY_PPAGE then case_PPAGE s
    else if ch = KEY_F 5 then case_F5 E s
    else .ok s

/-! ## `display_posts` -/

/-- The render step of the loop of `display_posts`: in `BLOG_VIEW` the sidebar
is drawn and `posts[index]` is evaluated and drawn. -/
def render {F : Type} (E : Env F) (s : State) : Except Fault (List SidebarRow × List Draw) :=
  if s.current_state = WindowState.BLOG_VIEW then
    match s.posts.get? (toSize s.index) with
    | none => .error (.outOfRange (toSize s.index) s.posts.length)
    | some post =>
      .ok (display_sidebar s.posts s.index s.sidebar_offset E.max_y,
           display_post post s.offset E.max_y (toInt (E.max_x - 25)))
  else .ok ([], [])

/-- State in which `display_posts` enters its loop. -/
def initial (posts : List Post) (keys : List Int) (calls : Nat) (token_file : Bool) : State :=
  { posts := posts, index := 0, offset := 0, sidebar_offset := 0,
    current_state := WindowState.BLOG_VIEW, popup_window := false,
    keys := keys, calls := calls, token_file := token_file }

/-- The first `k` calls of `handle_user_input` made by the loop. -/
def run {F : Type} (E : Env F) : Nat → State → Except Fault State
  | 0, s => .ok s
  | k + 1, s =>
    match handle_user_input E s with
    | .error e => .error e
    | .ok s2 => run E k s2

/-- States the loop of `display_posts` can be in before a call of
`handle_user_input`, started on `posts`. -/
inductive Reachable {F : Type} (E : Env F) (posts : List Post) : State → Prop where
  | start (keys : List Int) (calls : Nat) (token_file : Bool) :
      Reachable E posts (initial posts keys calls token_file)
  | step (s s2 : State) :
      Reachable E posts s → handle_user_input E s = .ok s2 → Reachable E posts s2

/-- States the loop of `display_posts` reaches from its initial state on
`posts` when every key read is page-down, page-up, down or up. -/
inductive NavReachable {F : Type} (E : Env F) (posts : List Post) : State → Prop where
  | start (keys : List Int) (calls : Nat) (token_file : Bool) :
      NavReachable E posts (initial posts keys calls token_file)
  | step (s s2 : State) (ch : Int) (rest : List Int) :
      NavReachable E posts s → s.keys = ch :: rest →
      (ch = KEY_NPAGE ∨ ch = KEY_PPAGE ∨ ch = KEY_DOWN ∨ ch = KEY_UP) →
      handle_user_input E s = .ok s2 → NavReachable E posts s2

/-! ## Invariant and concrete inputs -/

/-- The list fits `int` and, when it is non-empty, `index` is a position of it. -/
def IndexInv (s : State) : Prop :=
  (s.posts.length : Int) ≤ INT_MAX ∧ (s.posts ≠ [] → 0 ≤ s.index ∧ s.index < s.posts.length)

/-- A post with a one-letter title and body. -/
def mkPost (c : Char) : Post :=
  { title := [c], content := [c], id := 0, published := [], author_id := 0, author_name := [] }

/-- Three posts titled A, B, C. -/
def postsABC : List Post := [mkPost 'A', mkPost 'B', mkPost 'C']

/-- The list is `posts`, `index` is a position of it and `sidebar_offset`
equals `index`. -/
def SyncInv (posts : List Post) (s : State) : Prop :=
  s.posts = posts ∧ 0 ≤ s.index ∧ s.index < posts.length ∧ s.sidebar_offset = s.index

/-- The state after the keys page-down, page-down, page-up, down on the posts
A, B, C. -/
def demoAfterPaging : State :=
  { posts := postsABC, index := 1, offset := 1, sidebar_offset := 1,
    current_state := WindowState.BLOG_VIEW, popup_window := false,
    keys := [], calls := 0, token_file := false }

/-- A service whose list holds one post, whose login is refused, and a form
library without fields, on an 80 x 24 terminal. -/
def demoEnv : Env Unit :=
  { fetch_and_parse_posts := fun _ => [mkPost 'X']
    login_and_save_token := fun _ _ _ => false
    new_form := fun _ => ()
    form_driver := fun _ _ => ()
    field_buffer := fun _ _ => []
    max_y := 24
    max_x := 80 }

/-- The state after the keys page-down, page-down, refresh, page-up on the
posts A, B, C with `demoEnv`. -/
def demoAfterKeys : State :=
  { posts := [mkPost 'X'], index := 0, offset := 0, sidebar_offset := 1,
    current_state := WindowState.BLOG_VIEW, popup_window := false,
    keys := [], calls := 1, token_file := false }

/-- A post titled T whose body is the two lines `a` and `b`. -/
def twoLinePost : Post :=
  { title := ['T'], content := ['a', '\n', 'b'], id := 1, published := ['d'],
    author_id := 1, author_name := ['n'] }

/-! ## Machine-integer lemmas -/

theorem toInt_eq_self {x : Int} (h : IsInt x) : toInt x = x := by
  unfold IsInt at h
  unfold toInt
  omega

theorem toInt_isInt (x : Int) : IsInt (toInt x) := by
  unfold IsInt toInt
  omega

theorem toSize_eq_toNat {x : Int} (h0 : 0 ≤ x) (h1 : x < 18446744073709551616) :
    toSize x = x.toNat := by
  unfold toSize
  omega

theorem toSize_zero : toSize 0 = 0 := by
  unfold toSize
  omega

theorem toSize_one : toSize 1 = 1 := by
  unfold toSize
  omega

theorem toInt_zero : toInt 0 = 0 := by
  unfold toInt
  omega

theorem toInt_one : toInt 1 = 1 := by
  unfold toInt
  omega

theorem toSize_lt (x : Int) : toSize x < 18446744073709551616 := by
  unfold toSize
  omega

theorem sizeSub_eq_sub {a b : Nat} (hb : b ≤ a) (ha : a < 18446744073709551616) :
    sizeSub a b = a - b := by
  unfold sizeSub
  omega

/-- The new value of `index` after `index = (index + 1) % posts.size()`. -/
theorem next_index_eq {n : Nat} {i : Int} (hn : (n : Int) ≤ INT_MAX) (h0 : 0 ≤ i)
    (h1 : i < n) : toInt ((toSize (toInt (i + 1)) % n : Nat)) = (i + 1) % (n : Int) := by
  unfold INT_MAX at hn
  have e1 : toInt (i + 1) = i + 1 := toInt_eq_self (by unfold IsInt; omega)
  have e2 : toSize (i + 1) = (i + 1).toNat := toSize_eq_toNat (by omega) (by omega)
  rw [e1, e2]
  have e3 : (((i + 1).toNat % n : Nat) : Int) = (i + 1) % (n : Int) := by
    rw [Int.natCast_mod, Int.toNat_of_nonneg (by omega)]
  rw [e3]
  have hpos : (0 : Int) < n := by omega
  have hlt := Int.emod_lt_of_pos (i + 1) hpos
  have hge := Int.emod_nonneg (i + 1) (by omega : (n : Int) ≠ 0)
  exact toInt_eq_self (by unfold IsInt; omega)

/-! ## Dispatch lemmas -/

theorem handle_NPAGE {F : Type} (E : Env F) (s : State) (rest : List Int)
    (hk : s.keys = KEY_NPAGE :: rest) :
    handle_user_input E s = case_NPAGE { s with keys := rest } := by
  simp [handle_user_input, hk, KEY_NPAGE, KEY_F, KEY_F0, KEY_DOWN, KEY_UP, KEY_q, KEY_PPAGE]

theorem handle_PPAGE {F : Type} (E : Env F) (s : State) (rest : List Int)
    (hk : s.keys = KEY_PPAGE :: rest) :
    handle_user_input E s = case_PPAGE { s with keys := rest } := by
  simp [handle_user_input, hk, KEY_NPAGE, KEY_F, KEY_F0, KEY_DOWN, KEY_UP, KEY_q, KEY_PPAGE]

theorem handle_F5 {F : Type} (E : Env F) (s : State) (rest : List Int)
    (hk : s.keys = KEY_F 5 :: rest) :
    handle_user_input E s = case_F5 E { s with keys := rest } := by
  simp [handle_user_input, hk, KEY_NPAGE, KEY_F, KEY_F0, KEY_DOWN, KEY_UP, KEY_q, KEY_PPAGE]

theorem handle_F1 {F : Type} (E : Env F) (s : State) (rest : List Int)
    (hk : s.keys = KEY_F 1 :: rest) :
    handle_user_input E s = case_F1 E { s with keys := rest } := by
  simp [handle_user_input, hk, KEY_NPAGE, KEY_F, KEY_F0, KEY_DOWN, KEY_UP, KEY_q, KEY_PPAGE]

/-- One page-down on a non-empty list whose positions fit `int`. -/
theorem case_NPAGE_ok (s : State) (hne : s.posts ≠ [])
    (hlen : (s.posts.length : Int) ≤ INT_MAX) (h0 : 0 ≤ s.index)
    (h1 : s.index < s.posts.length) :
    ∃ s1, case_NPAGE s = .ok s1 ∧ s1.index = (s.index + 1) % (s.posts.length : Int)
      ∧ s1.posts = s.posts ∧ s1.keys = s.keys ∧ s1.offset = 0 := by
  have hn : s.posts.length ≠ 0 := by
    intro h
    exact hne (List.length_eq_zero.mp h)
  have e : case_NPAGE s = .ok
      { s with sidebar_offset :=
                 if toSize s.sidebar_offset ≤ sizeSub s.posts.length 2 then
                   toInt (s.sidebar_offset + 1) else 0
               index := toInt ((toSize (toInt (s.index + 1)) % s.posts.length : Nat))
               offset := 0 } := by
    unfold case_NPAGE
    simp only [hn, if_false]
  exact ⟨_, e, next_index_eq hlen h0 h1, rfl, rfl, rfl⟩

/-- After `k` page-downs the index has advanced by `k` modulo the length. -/
theorem run_NPAGE {F : Type} (E : Env F) (k : Nat) :
    ∀ (s : State) (rest : List Int), s.posts ≠ [] → (s.posts.length : Int) ≤ INT_MAX →
      0 ≤ s.index → s.index < s.posts.length →
      ∃ sk, run E k { s with keys := List.replicate k KEY_NPAGE ++ rest } = .ok sk
        ∧ sk.index = (s.index + k) % (s.posts.length : Int)
        ∧ sk.posts = s.posts ∧ sk.keys = rest := by
  induction k with
  | zero =>
    intro s rest _ _ h0 h1
    refine ⟨_, rfl, ?_, rfl, ?_⟩
    · simp only [Nat.cast_zero, add_zero]
      exact (Int.emod_eq_of_lt h0 h1).symm
    · simp
  | succ k ih =>
    intro s rest hne hlen h0 h1
    obtain ⟨s1, e1, i1, p1, k1, _⟩ := case_NPAGE_ok { s with keys := List.replicate k KEY_NPAGE ++ rest }
      hne hlen h0 h1
    have hpos : (0 : Int) < s.posts.length := by omega
    have hs1 : s1 = { s1 with keys := List.replicate k KEY_NPAGE ++ rest } := by
      cases s1
      simp only [State.mk.injEq, true_and, and_true] at k1 ⊢
      simpa using k1
    obtain ⟨sk, ek, ik, pk, kk⟩ := ih s1 rest (by rw [p1]; exact hne) (by rw [p1]; exact hlen)
      (by rw [i1]; exact Int.emod_nonneg _ (by simpa using hpos.ne.symm))
      (by rw [i1, p1]; exact Int.emod_lt_of_pos _ hpos)
    refine ⟨sk, ?_, ?_, ?_, kk⟩
    · rw [List.replicate_succ, List.cons_append, run, handle_NPAGE E _ _ rfl, e1]
      simp only []
      rw [hs1]
      exact ek
    · rw [ik, i1, p1]
      simp only [State.posts]
      rw [Int.emod_add_emod]
      congr 1
      push_cast
      ring
    · rw [pk, p1]

/-! ## Frame lemmas for the overlay branches -/

theorem case_F1_frame {F : Type} (E : Env F) (s s2 : State) (h : case_F1 E s = .ok s2) :
    s2.posts = s.posts ∧ s2.index = s.index ∧ s2.offset = s.offset
      ∧ s2.sidebar_offset = s.sidebar_offset := by
  unfold case_F1 at h
  simp only [] at h
  repeat' split at h
  all_goals first
    | (cases h; done)
    | (cases h; exact ⟨rfl, rfl, rfl, rfl⟩)

theorem case_F2_frame {F : Type} (E : Env F) (s s2 : State) (h : case_F2 E s = .ok s2) :
    s2.posts = s.posts ∧ s2.index = s.index ∧ s2.offset = s.offset
      ∧ s2.sidebar_offset = s.sidebar_offset := by
  unfold case_F2 at h
  repeat' split at h
  all_goals first
    | (cases h; done)
    | (cases h; exact ⟨rfl, rfl, rfl, rfl⟩)

/-! ## The index invariant -/

theorem prev_index_bounds {n : Nat} {i : Int} (hn : (n : Int) ≤ INT_MAX) (hpos : 0 < n)
    (h0 : 0 ≤ i) (h1 : i < n) :
    0 ≤ (if toInt (i - 1) < 0 then toInt (sizeSub n 1 : Nat) else toInt (i - 1)) ∧
    (if toInt (i - 1) < 0 then toInt (sizeSub n 1 : Nat) else toInt (i - 1)) < n := by
  unfold INT_MAX at hn
  have e1 : toInt (i - 1) = i - 1 := toInt_eq_self (by unfold IsInt; omega)
  have e2 : sizeSub n 1 = n - 1 := sizeSub_eq_sub (by omega) (by omega)
  have e3 : toInt ((n - 1 : Nat) : Int) = ((n - 1 : Nat) : Int) :=
    toInt_eq_self (by unfold IsInt; omega)
  rw [e1, e2, e3]
  split <;> omega

theorem handle_user_input_inv {F : Type} (E : Env F)
    (hE : ∀ t, ((E.fetch_and_parse_posts t).length : Int) ≤ INT_MAX)
    (s s2 : State) (h : handle_user_input E s = .ok s2) (hinv : IndexInv s) :
    IndexInv s2 := by
  unfold handle_user_input at h
  split at h
  · cases h
  · rename_i ch ks hk
    simp only [] at h
    split at h
    · obtain ⟨e1, e2, _, _⟩ := case_F1_frame E _ _ h
      unfold IndexInv
      rw [e1, e2]
      exact hinv
    split at h
    · obtain ⟨e1, e2, _, _⟩ := case_F2_frame E _ _ h
      unfold IndexInv
      rw [e1, e2]
      exact hinv
    split at h
    · cases h
      exact hinv
    split at h
    · split at h <;> cases h <;> exact hinv
    split at h
    · cases h
    split at h
    · unfold case_NPAGE at h
      simp only [] at h
      split at h
      · cases h
      · rename_i hn
        cases h
        refine ⟨hinv.1, fun hne => ?_⟩
        obtain ⟨h0, h1⟩ := hinv.2 hne
        simp only []
        rw [next_index_eq hinv.1 h0 h1]
        have hpos : (0 : Int) < s.posts.length := by omega
        exact ⟨Int.emod_nonneg _ (by omega), Int.emod_lt_of_pos _ hpos⟩
    split at h
    · unfold case_PPAGE at h
      cases h
      refine ⟨hinv.1, fun hne => ?_⟩
      obtain ⟨h0, h1⟩ := hinv.2 hne
      have hpos : 0 < s.posts.length := List.length_pos.mpr hne
      exact prev_index_bounds hinv.1 hpos h0 h1
    split at h
    · unfold case_F5 at h
      simp only [] at h
      split at h
      · cases h
      · rename_i post hp
        cases h
        refine ⟨hE _, fun _ => ?_⟩
        simp only []
        have := List.get?_eq_some.mp hp
        obtain ⟨hlt, _⟩ := this
        simp only [toSize] at hlt
        constructor
        · omega
        · exact_mod_cast hlt
    · cases h
      exact hinv

theorem reachable_inv {F : Type} (E : Env F) (posts : List Post)
    (hE : ∀ t, ((E.fetch_and_parse_posts t).length : Int) ≤ INT_MAX)
    (hp : (posts.length : Int) ≤ INT_MAX) (s : State) (hr : Reachable E posts s) :
    IndexInv s := by
  induction hr with
  | start keys calls token_file =>
    refine ⟨hp, fun hne => ?_⟩
    have hpos : 0 < posts.length := List.length_pos.mpr hne
    simp only [initial]
    omega
  | step s s2 _ hstep ih => exact handle_user_input_inv E hE s s2 hstep ih

/-! ## Claims -/

/-- Claim C1: on a non-empty list of length n whose positions fit `int`, with
0 <= index < n, one page-down sets index to (index + 1) mod n, and n page-downs
in a row bring index back to its starting value. -/
theorem C1_page_down_cycle {F : Type} (E : Env F) (s : State) (rest : List Int)
    (hne : s.posts ≠ []) (hlen : (s.posts.length : Int) ≤ INT_MAX)
    (h0 : 0 ≤ s.index) (h1 : s.index < s.posts.length) :
    (∃ s1, handle_user_input E { s with keys := KEY_NPAGE :: rest } = .ok s1
        ∧ s1.index = (s.index + 1) % (s.posts.length : Int)) ∧
    (∃ sn, run E s.posts.length
          { s with keys := List.replicate s.posts.length KEY_NPAGE ++ rest } = .ok sn
        ∧ sn.index = s.index) := by
  constructor
  · obtain ⟨s1, e1, i1, _⟩ := case_NPAGE_ok { s with keys := rest } hne hlen h0 h1
    exact ⟨s1, by rw [handle_NPAGE E _ rest rfl]; exact e1, i1⟩
  · obtain ⟨sn, en, idx, _⟩ := run_NPAGE E s.posts.length s rest hne hlen h0 h1
    refine ⟨sn, en, ?_⟩
    rw [idx, Int.add_emod_self]
    exact Int.emod_eq_of_lt h0 h1

/-- Witness of C1: posts A, B, C from index 0; two page-downs select 2, the
third selects 0 again. -/
theorem C1_page_down_cycle_witness :
    ((∃ s1, handle_user_input demoEnv
          { initial postsABC [] 0 false with keys := KEY_NPAGE :: [] } = .ok s1
        ∧ s1.index = ((initial postsABC [] 0 false).index + 1)
            % ((initial postsABC [] 0 false).posts.length : Int)) ∧
      (∃ sn, run demoEnv (initial postsABC [] 0 false).posts.length
          { initial postsABC [] 0 false with
            keys := List.replicate (initial postsABC [] 0 false).posts.length KEY_NPAGE ++ [] }
            = .ok sn
        ∧ sn.index = (initial postsABC [] 0 false).index))
    ∧ (run demoEnv 2 (initial postsABC [KEY_NPAGE, KEY_NPAGE, KEY_NPAGE] 0 false)).map
        State.index = .ok 2
    ∧ (run demoEnv 3 (initial postsABC [KEY_NPAGE, KEY_NPAGE, KEY_NPAGE] 0 false)).map
        State.index = .ok 0 :=
  ⟨C1_page_down_cycle demoEnv (initial postsABC [] 0 false) [] (by decide) (by decide)
      (by decide) (by decide), by decide, by decide⟩

/-- Claim C2: in every state the loop of `display_posts` reaches through calls
of `handle_user_input` (any keys, any refreshed lists whose positions fit
`int`), a non-empty list has 0 <= index < len(posts), so the access posts[index]
of the render step is in range and the render step completes. -/
theorem C2_index_in_range {F : Type} (E : Env F) (posts : List Post)
    (hE : ∀ t, ((E.fetch_and_parse_posts t).length : Int) ≤ INT_MAX)
    (hp : (posts.length : Int) ≤ INT_MAX) (s : State) (hr : Reachable E posts s)
    (hne : s.posts ≠ []) :
    0 ≤ s.index ∧ s.index < s.posts.length
      ∧ (∃ post, s.posts.get? (toSize s.index) = some post)
      ∧ (∃ out, render E s = .ok out) := by
  obtain ⟨hlen, hidx⟩ := reachable_inv E posts hE hp s hr
  obtain ⟨h0, h1⟩ := hidx hne
  unfold INT_MAX at hlen
  have hsz : toSize s.index < s.posts.length := by
    rw [toSize_eq_toNat h0 (by omega)]
    omega
  have hget : s.posts.get? (toSize s.index) = some (s.posts.get ⟨toSize s.index, hsz⟩) :=
    List.get?_eq_get hsz
  refine ⟨h0, h1, ⟨_, hget⟩, ?_⟩
  unfold render
  split
  · rw [hget]
    exact ⟨_, rfl⟩
  · exact ⟨_, rfl⟩

/-- Witness of C2: the state after page-down, page-down, refresh, page-up on
the posts A, B, C. -/
theorem C2_index_in_range_witness :
    0 ≤ demoAfterKeys.index ∧ demoAfterKeys.index < demoAfterKeys.posts.length
      ∧ (∃ post, demoAfterKeys.posts.get? (toSize demoAfterKeys.index) = some post)
      ∧ (∃ out, render demoEnv demoAfterKeys = .ok out) :=
  C2_index_in_range demoEnv postsABC (fun _ => by simp [demoEnv, INT_MAX]) (by decide)
    demoAfterKeys
    (Reachable.step _ _
      (Reachable.step _ _
        (Reachable.step _ _
          (Reachable.step _ _
            (Reachable.start [KEY_NPAGE, KEY_NPAGE, KEY_F 5, KEY_PPAGE] 0 false)
            (by decide : handle_user_input demoEnv _ = .ok
              { posts := postsABC, index := 1, offset := 0, sidebar_offset := 1,
                current_state := WindowState.BLOG_VIEW, popup_window := false,
                keys := [KEY_NPAGE, KEY_F 5, KEY_PPAGE], calls := 0, token_file := false }))
          (by decide : handle_user_input demoEnv _ = .ok
            { posts := postsABC, index := 2, offset := 0, sidebar_offset := 2,
              current_state := WindowState.BLOG_VIEW, popup_window := false,
              keys := [KEY_F 5, KEY_PPAGE], calls := 0, token_file := false }))
        (by decide : handle_user_input demoEnv _ = .ok
          { posts := [mkPost 'X'], index := 0, offset := 0, sidebar_offset := 2,
            current_state := WindowState.BLOG_VIEW, popup_window := false,
            keys := [KEY_PPAGE], calls := 1, token_file := false }))
      (by decide : handle_user_input demoEnv _ = .ok demoAfterKeys))
    (by decide)

/-- Claim C3: after a page-down or page-up step `offset` is 0.  On the empty
list the page-down step does not complete: `(index + 1) % posts.size()` divides
by zero before `offset = 0` is reached.  On every non-empty list page-down
completes with `offset` 0, and page-up completes with `offset` 0 on every list. -/
theorem C3_page_down_empty_divides_by_zero {F : Type} (E : Env F) (s : State) (p : Post)
    (ps : List Post) (rest : List Int) :
    handle_user_input E { s with posts := [], keys := KEY_NPAGE :: rest } = .error .divByZero
    ∧ (∃ s1, handle_user_input E { s with posts := p :: ps, keys := KEY_NPAGE :: rest } = .ok s1
        ∧ s1.offset = 0)
    ∧ (∃ s1, handle_user_input E { s with keys := KEY_PPAGE :: rest } = .ok s1
        ∧ s1.offset = 0) := by
  refine ⟨?_, ?_, ?_⟩
  · rw [handle_NPAGE E _ rest rfl]
    simp [case_NPAGE]
  · rw [handle_NPAGE E _ rest rfl]
    simp [case_NPAGE]
  · rw [handle_PPAGE E _ rest rfl]
    simp [case_PPAGE]

/-- Claim C5: when the refresh key is handled and the service returns the empty
list, the handler sets `index` to 0 and then evaluates `posts[index]` for
`display_post` on the empty vector: the call ends in an out-of-range access at
position 0 of a list of length 0 instead of completing. -/
theorem C5_refresh_empty_indexes_list {F : Type} (E : Env F) (s : State) (rest : List Int) :
    handle_user_input { E with fetch_and_parse_posts := fun _ => [] }
      { s with keys := KEY_F 5 :: rest } = .error (.outOfRange 0 0) := by
  rw [handle_F5 _ _ rest rfl]
  simp [case_F5, toSize_zero]

/-- Claim C6: with a single post, one page-down from the initial state leaves
`index` at 0 and moves `sidebar_offset` to 1, because `posts.size() - 2` wraps
around to the largest `size_t`; the selected post is then outside the window
`[sidebar_offset, sidebar_offset + H)` for every H and `display_sidebar` draws
no row at all. -/
theorem C6_single_post_leaves_window {F : Type} (E : Env F) (p : Post) (rest : List Int)
    (calls : Nat) (token_file : Bool) (H : Int) :
    ∃ s1, handle_user_input E (initial [p] (KEY_NPAGE :: rest) calls token_file) = .ok s1
      ∧ s1.index = 0 ∧ s1.sidebar_offset = 1
      ∧ ¬ (s1.sidebar_offset ≤ s1.index ∧ s1.index < s1.sidebar_offset + H)
      ∧ display_sidebar s1.posts s1.index s1.sidebar_offset H = [] := by
  refine ⟨{ initial [p] rest calls token_file with sidebar_offset := 1 }, ?_, rfl, rfl, ?_, ?_⟩
  · rw [handle_NPAGE E _ rest rfl]
    have hcond : toSize 0 ≤ sizeSub ([p] : List Post).length 2 := by
      rw [toSize_zero]
      exact Nat.zero_le _
    have hidx : toInt ((toSize (toInt (0 + 1)) % ([p] : List Post).length : Nat)) = 0 := by
      simp only [List.length_singleton, Nat.mod_one, Nat.cast_zero]
      exact toInt_zero
    simp only [initial, case_NPAGE, if_pos hcond, hidx]
    simp [toInt_one]
  · simp [initial]
  · simp only [initial, display_sidebar]
    rw [sidebar_loop]
    simp [toSize_one, toInt_one]

/-! ### The login overlay -/

theorem form_loop_append {F : Type} (E : Env F) (toggle : Int) (typed rest : List Int) :
    ∀ form : F, toggle ∉ typed →
      form_loop E toggle form (typed ++ toggle :: rest)
        = some (typed.foldl (form_key E) form, rest) := by
  induction typed with
  | nil =>
    intro form _
    simp [form_loop]
  | cons c cs ih =>
    intro form hc
    have hne : c ≠ toggle := fun h => hc (by simp [h])
    have hcs : toggle ∉ cs := fun h => hc (by simp [h])
    simp only [List.cons_append, form_loop, hne, if_false, List.foldl_cons]
    exact ih _ hcs

theorem wait_key_append (key : Int) (junk rest : List Int) (hj : key ∉ junk) :
    wait_key key (junk ++ key :: rest) = some rest := by
  induction junk with
  | nil => simp [wait_key]
  | cons c cs ih =>
    have hne : c ≠ key := fun h => hj (by simp [h])
    have hcs : key ∉ cs := fun h => hj (by simp [h])
    simp only [List.cons_append, wait_key, hne, if_false]
    exact ih hcs

theorem wait_key_none (key : Int) (junk : List Int) (hj : key ∉ junk) :
    wait_key key junk = none := by
  induction junk with
  | nil => rfl
  | cons c cs ih =>
    have hne : c ≠ key := fun h => hj (by simp [h])
    have hcs : key ∉ cs := fun h => hj (by simp [h])
    simp only [wait_key, hne, if_false]
    exact ih hcs

/-- Counterexample to C10: the login is refused, then the keys x, F1 and
page-down arrive.  The key x does not close the overlay: the handler returns
only after the F1 that follows, two keys after the failure, and with x as the
last key it never returns. -/
theorem C10_error_overlay_ignores_other_keys :
    handle_user_input demoEnv
        (initial postsABC [KEY_F 1, KEY_F 1, 120, KEY_F 1, KEY_NPAGE] 0 false)
      = .ok (initial postsABC [KEY_NPAGE] 1 false)
    ∧ handle_user_input demoEnv
        (initial postsABC [KEY_F 1, KEY_F 1, 120, KEY_F 1, KEY_NPAGE] 0 false)
      ≠ .ok (initial postsABC [KEY_F 1, KEY_NPAGE] 1 false)
    ∧ handle_user_input demoEnv (initial postsABC [KEY_F 1, KEY_F 1, 120] 0 false)
      = .error .blocked := by
  decide

/-- Claim C10, amended: when the login submitted with F1 is refused, the
handler discards every key other than F1 and returns on the first F1, with the
overlay closed (`BLOG_VIEW`, no popup window) and `posts`, `index`, `offset`,
`sidebar_offset` unchanged; while no F1 arrives it does not return. -/
theorem C10_login_failure_waits_for_F1 {F : Type} (E : Env F) (s : State)
    (typed junk rest : List Int)
    (hview : s.current_state = WindowState.BLOG_VIEW)
    (ht : KEY_F 1 ∉ typed) (hj : KEY_F 1 ∉ junk)
    (hfail : E.login_and_save_token s.calls
        (trim_whitespaces (E.field_buffer (submitted_form E 2 typed) 0))
        (trim_whitespaces (E.field_buffer (submitted_form E 2 typed) 1)) = false) :
    handle_user_input E { s with keys := KEY_F 1 :: (typed ++ KEY_F 1 :: (junk ++ KEY_F 1 :: rest)) }
      = .ok { s with keys := rest, calls := s.calls + 1, popup_window := false,
                     current_state := WindowState.BLOG_VIEW }
    ∧ handle_user_input E { s with keys := KEY_F 1 :: (typed ++ KEY_F 1 :: junk) }
      = .error .blocked := by
  constructor
  · rw [handle_F1 E _ _ rfl]
    unfold case_F1
    simp only [hview, if_true, form_loop_append E (KEY_F 1) typed _ _ ht]
    unfold submitted_form at hfail
    simp only [hfail, wait_key_append (KEY_F 1) junk rest hj]
    simp
  · rw [handle_F1 E _ _ rfl]
    unfold case_F1
    simp only [hview, if_true, form_loop_append E (KEY_F 1) typed _ _ ht]
    unfold submitted_form at hfail
    simp only [hfail, wait_key_none (KEY_F 1) junk hj]
    simp

/-- Witness of C10: the login is refused after typing a and b, then x and y
are discarded and F1 closes the overlay. -/
theorem C10_login_failure_waits_for_F1_witness :
    handle_user_input demoEnv
        { initial postsABC [] 0 false with
          keys := KEY_F 1 :: ([97, 98] ++ KEY_F 1 :: ([120, 121] ++ KEY_F 1 :: [KEY_NPAGE])) }
      = .ok { initial postsABC [] 0 false with
              keys := [KEY_NPAGE], calls := (initial postsABC [] 0 false).calls + 1,
              popup_window := false, current_state := WindowState.BLOG_VIEW }
    ∧ handle_user_input demoEnv
        { initial postsABC [] 0 false with keys := KEY_F 1 :: ([97, 98] ++ KEY_F 1 :: [120, 121]) }
      = .error .blocked :=
  C10_login_failure_waits_for_F1 demoEnv (initial postsABC [] 0 false) [97, 98] [120, 121]
    [KEY_NPAGE] rfl (by decide) (by decide) rfl

/-! ### The sidebar -/

theorem sidebar_loop_spec (posts : List Post) (current_index offset max_y : Int) :
    ∀ (k : Nat) (i : Int), (max_y - i).toNat = k →
      (sidebar_loop posts current_index offset max_y i).length ≤ k ∧
      ∀ r ∈ sidebar_loop posts current_index offset max_y i,
        i ≤ r.row ∧ r.row < max_y ∧ r.src = toSize (toInt (r.row + offset))
          ∧ r.src < posts.length := by
  intro k
  induction k with
  | zero =>
    intro i hk
    rw [sidebar_loop]
    have hi : ¬ i < max_y := by omega
    simp [hi]
  | succ k ih =>
    intro i hk
    rw [sidebar_loop]
    split
    · rename_i hc
      obtain ⟨hlen, hrows⟩ := ih (i + 1) (by omega)
      refine ⟨by simpa using hlen, ?_⟩
      intro r hr
      rcases List.mem_cons.mp hr with h | h
      · subst h
        exact ⟨le_refl _, hc.1, rfl, hc.2⟩
      · obtain ⟨h1, h2, h3, h4⟩ := hrows r h
        exact ⟨by omega, h2, h3, h4⟩
    · simp

/-- Claim C4: for every list (of a length a vector can have), every window
height H >= 0, every selected index and every `int` value of `sidebar_offset`,
`display_sidebar` draws at most H rows, and the position `i + sidebar_offset`
read by each row satisfies 0 <= i + sidebar_offset < len(posts). -/
theorem C4_sidebar_rows_in_range (posts : List Post) (current_index offset max_y : Int)
    (hvec : posts.length < 9223372036854775808) (hoff : IsInt offset) (hmax : IsInt max_y)
    (hH : 0 ≤ max_y) :
    ((display_sidebar posts current_index offset max_y).length : Int) ≤ max_y ∧
    ∀ r ∈ display_sidebar posts current_index offset max_y,
      0 ≤ r.row + offset ∧ r.row + offset < posts.length ∧ (r.src : Int) = r.row + offset := by
  obtain ⟨hlen, hrows⟩ := sidebar_loop_spec posts current_index offset max_y
    (max_y - 0).toNat 0 rfl
  unfold display_sidebar
  constructor
  · omega
  · intro r hr
    obtain ⟨h1, h2, h3, h4⟩ := hrows r hr
    unfold IsInt at hoff hmax
    rw [h3] at h4 ⊢
    unfold toSize toInt at h4 ⊢
    omega

/-- Witness of C4: three posts, window of 5 rows, `sidebar_offset` = 1. -/
theorem C4_sidebar_rows_in_range_witness :
    ((display_sidebar postsABC 0 1 5).length : Int) ≤ 5 ∧
    ∀ r ∈ display_sidebar postsABC 0 1 5,
      0 ≤ r.row + 1 ∧ r.row + 1 < postsABC.length ∧ (r.src : Int) = r.row + 1 :=
  C4_sidebar_rows_in_range postsABC 0 1 5 (by decide) (by decide) (by decide) (by decide)

/-! ### The reading pane -/

theorem wrap_loop_nil (max_y max_x : Int) (line : Int) :
    wrap_loop max_y max_x [] 0 line = ([], line) := by
  rw [wrap_loop]
  simp

theorem toSize_natCast (n : Nat) (h : n < 18446744073709551616) : toSize (n : Int) = n := by
  rw [toSize_eq_toNat (Int.natCast_nonneg n) (by exact_mod_cast h)]
  exact Int.toNat_natCast n

theorem toInt_high {x : Int} (h1 : 2147483648 ≤ x) (h2 : x < 6442450944) :
    toInt x = x - 4294967296 := by
  unfold toInt
  omega

theorem toSize_neg {x : Int} (h1 : -18446744073709551616 ≤ x) (h2 : x < 0) :
    toSize x = (x + 18446744073709551616).toNat := by
  unfold toSize
  omega

/-- A start index that has run past the end of the line ends the loop, also
when the addition wrapped around. -/
theorem past_end_exits (L : Nat) (P : Int) (hL : (L : Int) ≤ 2147483647) (h1 : (L : Int) ≤ P)
    (h2 : P < 4294967296) : ¬ (L > toSize (toInt P)) := by
  by_cases hP : P ≤ 2147483647
  · rw [toInt_eq_self (by unfold IsInt; omega), toSize_eq_toNat (by omega) (by omega)]
    omega
  · rw [toInt_high (by omega) (by omega), toSize_neg (by omega) (by omega)]
    omega

theorem chunk_count_facts (L W : Nat) (hW1 : 1 ≤ W) :
    L ≤ ((L + W - 1) / W) * W ∧ ((L + W - 1) / W) * W ≤ L + W - 1 ∧
    ∀ j, j < (L + W - 1) / W → j * W + W ≤ ((L + W - 1) / W) * W := by
  refine ⟨?_, Nat.div_mul_le_self _ _, ?_⟩
  · have h := Nat.lt_mul_div_succ (L + W - 1) (by omega : 0 < W)
    rw [Nat.mul_add, Nat.mul_one, Nat.mul_comm] at h
    omega
  · intro j hj
    have h := Nat.mul_le_mul_right W (Nat.succ_le_of_lt hj)
    rw [Nat.succ_mul] at h
    exact h

theorem row_below_cap (base cap : Int) (j c : Nat) (h1 : base + (c : Int) ≤ cap) (h2 : j < c) :
    ¬ (base + (j : Int) ≥ cap) := by
  omega

theorem chunk_bounds (L W P Q : Nat) (hL : L ≤ 2147483647) (h1 : Q + W ≤ P)
    (h2 : P ≤ L + W - 1) (hW1 : 1 ≤ W) : Q ≤ 2147483647 ∧ Q < L := by
  omega

theorem end_bounds (L W P : Nat) (hL : L ≤ 2147483647) (hW : W ≤ 2147483647)
    (h2 : P ≤ L + W - 1) : (P : Int) < 4294967296 := by
  omega

theorem wrap_loop_chunks (max_y max_x : Int) (s : Str) (W : Nat) (base : Int)
    (hW : max_x = W) (hW1 : 1 ≤ W) (hWi : W ≤ 2147483647)
    (hLi : s.length ≤ 2147483647)
    (hcap : base + ((s.length + W - 1) / W : Nat) ≤ toInt (max_y - 1)) :
    ∀ (n j : Nat), n + j = (s.length + W - 1) / W →
      wrap_loop max_y max_x s (toInt ((j * W : Nat) : Int)) (base + j) =
        ((List.range' j n).map
            (fun (t : Nat) =>
              ({ row := base + (t : Int), col := 0, text := (s.drop (t * W)).take W } : Draw)),
          base + ((s.length + W - 1) / W : Nat)) := by
  subst hW
  obtain ⟨f1, f2, f3⟩ := chunk_count_facts s.length W hW1
  intro n
  induction n with
  | zero =>
    intro j hj
    simp only [Nat.zero_add] at hj
    subst hj
    rw [wrap_loop]
    have hc : ¬ (s.length > toSize (toInt ((((s.length + W - 1) / W) * W : Nat) : Int))) :=
      past_end_exits s.length _ (by exact_mod_cast hLi) (by exact_mod_cast f1)
        (end_bounds s.length W _ hLi hWi f2)
    rw [if_neg hc]
    simp
  | succ n ih =>
    intro j hj
    have hjc : j < (s.length + W - 1) / W := by
      rw [← hj]
      exact Nat.lt_add_left_iff_pos.mpr (Nat.succ_pos n)
    have hjW := f3 j hjc
    obtain ⟨hQ31, hQL⟩ := chunk_bounds s.length W _ (j * W) hLi hjW f2 hW1
    have e := ih (j + 1) (by rw [← hj]; ring)
    have hl : ¬ (base + (j : Int) ≥ toInt (max_y - 1)) :=
      row_below_cap base _ j _ hcap hjc
    have e1 : toInt ((j * W : Nat) : Int) = ((j * W : Nat) : Int) :=
      toInt_eq_self ⟨le_trans (by norm_num) (Int.natCast_nonneg _), by exact_mod_cast hQ31⟩
    have e2 : toSize ((j * W : Nat) : Int) = j * W :=
      toSize_natCast _ (Nat.lt_of_le_of_lt hQ31 (by norm_num))
    have e3 : toSize (W : Int) = W :=
      toSize_natCast W (Nat.lt_of_le_of_lt hWi (by norm_num))
    have hc : s.length > toSize (toInt ((j * W : Nat) : Int)) := by
      rw [e1, e2]
      exact hQL
    have e4 : base + ((j + 1 : Nat) : Int) = base + (j : Int) + 1 := by push_cast; ring
    have e5 : (((j + 1) * W : Nat) : Int) = ((j * W : Nat) : Int) + (W : Int) := by
      push_cast
      ring
    rw [e4, e5] at e
    rw [wrap_loop]
    simp only [hc, if_true, dif_neg hl]
    rw [e1, e2, e3, e, List.range'_succ]
    simp [substr]

theorem getline_loop_append (a rest : Str) :
    ∀ cur : Str, getline_loop cur (a ++ '\n' :: rest)
      = getline_loop cur (a ++ ['\n']) ++ getline_loop [] rest := by
  induction a with
  | nil =>
    intro cur
    simp [getline_loop]
  | cons c cs ih =>
    intro cur
    by_cases hc : c = '\n'
    · simp only [List.cons_append, getline_loop, hc, if_true, List.append_eq, ih]
    · simp only [List.cons_append, getline_loop, hc, if_false, List.append_eq, ih]

theorem getline_loop_newlines (m : Nat) (b : Str) :
    getline_loop [] (List.replicate m '\n' ++ b)
      = List.replicate m [] ++ getline_loop [] b := by
  induction m with
  | zero => simp
  | succ m ih =>
    simp only [List.replicate_succ, List.cons_append, getline_loop, if_true, List.append_eq, ih]

theorem getline_loop_line (s : Str) (hnl : '\n' ∉ s) :
    ∀ cur : Str, cur ++ s ≠ [] → getline_loop cur s = [cur ++ s] := by
  induction s with
  | nil =>
    intro cur h
    simp only [List.append_nil] at h
    simp [getline_loop, h]
  | cons c cs ih =>
    intro cur _
    have hc : c ≠ '\n' := fun h => hnl (by simp [h])
    have hcs : '\n' ∉ cs := fun h => hnl (by simp [h])
    simp only [getline_loop, hc, if_false]
    rw [ih hcs (cur ++ [c]) (by simp)]
    simp

theorem expand_tabs_id (s : Str) (htab : '\t' ∉ s) : expand_tabs s = s := by
  induction s with
  | nil => rfl
  | cons c cs ih =>
    have hc : c ≠ '\t' := fun h => htab (by simp [h])
    have hcs : '\t' ∉ cs := fun h => htab (by simp [h])
    simp only [expand_tabs, hc, if_false, ih hcs]

theorem body_loop_append (max_y max_x : Int) (xs ys : List Str) :
    ∀ line : Int, body_loop max_y max_x (xs ++ ys) line
      = ((body_loop max_y max_x xs line).1
            ++ (body_loop max_y max_x ys (body_loop max_y max_x xs line).2).1,
          (body_loop max_y max_x ys (body_loop max_y max_x xs line).2).2) := by
  induction xs with
  | nil =>
    intro line
    simp [body_loop]
  | cons x xs ih =>
    intro line
    simp only [List.cons_append, body_loop, List.append_eq, ih, List.append_assoc]

theorem body_loop_empty_lines (max_y max_x : Int) (m : Nat) :
    ∀ line : Int, body_loop max_y max_x (List.replicate m []) line = ([], line) := by
  induction m with
  | zero =>
    intro line
    rfl
  | succ m ih =>
    intro line
    simp only [List.replicate_succ, body_loop, expand_tabs, wrap_loop_nil, ih, List.append_nil]

theorem chunks_join (s : Str) (W : Nat) :
    ∀ (n j : Nat), ((List.range' j n).map (fun (t : Nat) => (s.drop (t * W)).take W)).flatten
      = (s.drop (j * W)).take (n * W) := by
  intro n
  induction n with
  | zero =>
    intro j
    simp
  | succ n ih =>
    intro j
    rw [List.range'_succ, List.map_cons, List.flatten_cons, ih (j + 1)]
    rw [Nat.succ_mul j W, Nat.succ_mul n W, Nat.add_comm (n * W) W, List.take_add,
      List.drop_drop]

/-- A line that fits into one row is printed as one row. -/
theorem wrap_loop_short_line (max_y max_x : Int) (s : Str) (W : Nat) (line : Int)
    (hW : max_x = W) (hWi : W ≤ 2147483647) (hs1 : 1 ≤ s.length) (hsW : s.length ≤ W)
    (hline : line + 1 ≤ toInt (max_y - 1)) :
    wrap_loop max_y max_x s 0 line = ([{ row := line, col := 0, text := s }], line + 1) := by
  have hc : (s.length + W - 1) / W = 1 :=
    Nat.div_eq_of_lt_le (by omega) (by omega)
  have h := wrap_loop_chunks max_y max_x s W line hW (by omega) hWi (by omega)
    (by rw [hc]; exact hline) 1 0 (by rw [hc])
  rw [hc] at h
  simp only [Nat.zero_mul, Nat.cast_zero, toInt_zero, add_zero, Nat.cast_one] at h
  rw [h]
  simp [List.take_of_length_le hsW]

/-- The rows drawn for the body `a\nb` and for the body `a\n\nb` in a 10 x 10
window. -/
theorem body_rows_two_lines :
    body_rows ['a', '\n', 'b'] 10 10
      = [{ row := 1, col := 0, text := ['a'] }, { row := 2, col := 0, text := ['b'] }]
    ∧ body_rows ['a', '\n', '\n', 'b'] 10 10
      = [{ row := 1, col := 0, text := ['a'] }, { row := 2, col := 0, text := ['b'] }] := by
  have ha : wrap_loop 10 10 ['a'] 0 1 = ([{ row := 1, col := 0, text := ['a'] }], 1 + 1) :=
    wrap_loop_short_line 10 10 ['a'] 10 1 rfl (by decide) (by decide) (by decide) (by decide)
  have hb : wrap_loop 10 10 ['b'] 0 2 = ([{ row := 2, col := 0, text := ['b'] }], 2 + 1) :=
    wrap_loop_short_line 10 10 ['b'] 10 2 rfl (by decide) (by decide) (by decide) (by decide)
  constructor
  · simp [body_rows, getline_loop, body_loop, expand_tabs, ha, hb]
  · simp [body_rows, getline_loop, body_loop, expand_tabs, ha, hb, wrap_loop_nil]

/-- Claim C7: `display_post` never reads its parameter `offset`: for every
post and window the rows drawn with content offset k are those drawn with
content offset 0.  With offset 1 the two-line body `a`, `b` is drawn from its
first wrapped line: row 1 shows `a` (wrapped line 0), not `b` (wrapped line 1). -/
theorem C7_display_post_ignores_offset (post : Post) (offset max_y max_x : Int) :
    display_post post offset max_y max_x = display_post post 0 max_y max_x
    ∧ display_post twoLinePost 1 10 10
      = [{ row := 0, col := 4, text := ['T'] },
         { row := 1, col := 0, text := ['a'] },
         { row := 2, col := 0, text := ['b'] },
         { row := 9, col := 0, text := "Author: n, Published: d".toList }] := by
  refine ⟨rfl, ?_⟩
  have hb : body_loop 10 10 (getline_loop [] ['a', '\n', 'b']) 1
      = ([{ row := 1, col := 0, text := ['a'] }, { row := 2, col := 0, text := ['b'] }], 3) := by
    have ha : wrap_loop 10 10 ['a'] 0 1 = ([{ row := 1, col := 0, text := ['a'] }], 1 + 1) :=
      wrap_loop_short_line 10 10 ['a'] 10 1 rfl (by decide) (by decide) (by decide) (by decide)
    have hb : wrap_loop 10 10 ['b'] 0 2 = ([{ row := 2, col := 0, text := ['b'] }], 2 + 1) :=
      wrap_loop_short_line 10 10 ['b'] 10 2 rfl (by decide) (by decide) (by decide) (by decide)
    simp [getline_loop, body_loop, expand_tabs, ha, hb]
  have hs : toInt ((sizeSub (toSize 10) ([ 'T' ] : Str).length / 2 : Nat) : Int) = 4 := by
    decide
  have hf : toInt (10 - 1) = 9 := by decide
  unfold display_post twoLinePost
  simp only [hb, hs, hf]
  decide

/-- Counterexample to C8: the body `a`, empty line, `b` is drawn as the two
rows `a` and `b`, exactly like the body `a`, `b`: the empty source line adds
no display line. -/
theorem C8_blank_line_not_drawn :
    (body_rows ['a', '\n', '\n', 'b'] 10 10).length = 2
    ∧ (body_rows ['a', '\n', 'b'] 10 10).length = 2
    ∧ ¬ ((body_rows ['a', '\n', '\n', 'b'] 10 10).length
          = (body_rows ['a', '\n', 'b'] 10 10).length + 1) := by
  obtain ⟨h1, h2⟩ := body_rows_two_lines
  rw [h1, h2]
  decide

/-- Claim C8, amended: an empty source line produces no display line.  For
every window, a body with m empty lines inserted after a line break is drawn
exactly as the body without them, and a body made of line breaks only draws
no row. -/
theorem C8_empty_lines_draw_nothing (a b : Str) (m : Nat) (max_y max_x : Int) :
    body_rows (a ++ '\n' :: (List.replicate m '\n' ++ b)) max_y max_x
      = body_rows (a ++ '\n' :: b) max_y max_x
    ∧ body_rows (List.replicate m '\n') max_y max_x = [] := by
  constructor
  · unfold body_rows
    rw [getline_loop_append a _ [], getline_loop_newlines, getline_loop_append a b []]
    simp only [body_loop_append, body_loop_empty_lines, List.nil_append]
  · unfold body_rows
    have h := getline_loop_newlines m []
    simp only [List.append_nil, getline_loop, if_true] at h
    rw [h, body_loop_empty_lines]

/-- Claim C9: for a window of W >= 1 columns and a body that is one tab-free,
newline-free line of length L >= 1 (L and W values of `int`, window tall
enough for the row cap not to be reached), `display_post` prints exactly
ceil(L / W) body rows, on the rows 1, 2, ...; row j holds the characters
[j * W, min((j + 1) * W, L)) of the line, and the rows concatenated are the
line.  For L = W there is one row, for L = W + 1 there are two and the second
holds one character. -/
theorem C9_hard_wrap (s : Str) (max_y max_x : Int) (W : Nat)
    (hW : max_x = W) (hW1 : 1 ≤ W) (hWi : (W : Int) ≤ INT_MAX)
    (hL1 : 1 ≤ s.length) (hLi : (s.length : Int) ≤ INT_MAX)
    (htab : '\t' ∉ s) (hnl : '\n' ∉ s) (hmax : IsInt max_y)
    (htall : (1 : Int) + ((s.length + W - 1) / W : Nat) ≤ max_y - 1) :
    body_rows s max_y max_x
      = (List.range ((s.length + W - 1) / W)).map
          (fun (j : Nat) =>
            ({ row := 1 + (j : Int), col := 0, text := (s.drop (j * W)).take W } : Draw))
    ∧ (body_rows s max_y max_x).length = (s.length + W - 1) / W
    ∧ (∀ j, j < (s.length + W - 1) / W →
        ((s.drop (j * W)).take W).length = min ((j + 1) * W) s.length - j * W)
    ∧ ((body_rows s max_y max_x).map Draw.text).flatten = s
    ∧ (s.length = W → (body_rows s max_y max_x).map Draw.text = [s])
    ∧ (s.length = W + 1 →
        (body_rows s max_y max_x).map Draw.text = [s.take W, s.drop W]
          ∧ (s.drop W).length = 1) := by
  have hWn : W ≤ 2147483647 := by
    unfold INT_MAX at hWi
    exact_mod_cast hWi
  have hLn : s.length ≤ 2147483647 := by
    unfold INT_MAX at hLi
    exact_mod_cast hLi
  have hcapv : toInt (max_y - 1) = max_y - 1 := by
    refine toInt_eq_self ?_
    have htall2 := htall
    generalize (s.length + W - 1) / W = c at htall2
    clear htall hWi hLi
    unfold IsInt at hmax ⊢
    omega
  have hcap : (1 : Int) + ((s.length + W - 1) / W : Nat) ≤ toInt (max_y - 1) := by
    rw [hcapv]
    exact htall
  have hne : ([] : Str) ++ s ≠ [] := by
    intro h
    rw [List.nil_append] at h
    rw [h] at hL1
    exact absurd hL1 (by decide)
  have hloop := wrap_loop_chunks max_y max_x s W 1 hW hW1 hWn hLn hcap
    ((s.length + W - 1) / W) 0 rfl
  simp only [Nat.zero_mul, Nat.cast_zero, toInt_zero, add_zero] at hloop
  have hrows : body_rows s max_y max_x
      = (List.range ((s.length + W - 1) / W)).map
          (fun (j : Nat) =>
            ({ row := 1 + (j : Int), col := 0, text := (s.drop (j * W)).take W } : Draw)) := by
    unfold body_rows
    rw [getline_loop_line s hnl [] hne, List.nil_append]
    simp only [body_loop, expand_tabs_id s htab, hloop, List.append_nil]
    rw [List.range_eq_range']
  have htexts : (body_rows s max_y max_x).map Draw.text
      = (List.range' 0 ((s.length + W - 1) / W)).map
          (fun (t : Nat) => (s.drop (t * W)).take W) := by
    rw [hrows, List.range_eq_range', List.map_map]
    rfl
  obtain ⟨f1, f2, f3⟩ := chunk_count_facts s.length W hW1
  refine ⟨hrows, ?_, ?_, ?_, ?_, ?_⟩
  · rw [hrows]
    simp
  · intro j hj
    have h3 := f3 j hj
    rw [List.length_take, List.length_drop, Nat.succ_mul]
    omega
  · rw [htexts, chunks_join, Nat.zero_mul, List.drop_zero]
    exact List.take_of_length_le f1
  · intro hLW
    have hc : (s.length + W - 1) / W = 1 := Nat.div_eq_of_lt_le (by omega) (by omega)
    rw [htexts, hc]
    simp [List.take_of_length_le (le_of_eq hLW)]
  · intro hLW
    have hc : (s.length + W - 1) / W = 2 := Nat.div_eq_of_lt_le (by omega) (by omega)
    have hd : (s.drop W).length = 1 := by
      rw [List.length_drop]
      omega
    rw [htexts, hc]
    refine ⟨?_, hd⟩
    simp [List.range', List.take_of_length_le (by omega : (s.drop W).length ≤ W)]

/-- Witness of C9: the line `abcde` in a window of 4 columns and 10 rows. -/
theorem C9_hard_wrap_witness :
    body_rows ['a', 'b', 'c', 'd', 'e'] 10 4
      = (List.range ((['a', 'b', 'c', 'd', 'e'].length + 4 - 1) / 4)).map
          (fun (j : Nat) =>
            ({ row := 1 + (j : Int), col := 0,
               text := (['a', 'b', 'c', 'd', 'e'].drop (j * 4)).take 4 } : Draw))
    ∧ (body_rows ['a', 'b', 'c', 'd', 'e'] 10 4).map Draw.text
      = [['a', 'b', 'c', 'd'], ['e']] :=
  ⟨(C9_hard_wrap ['a', 'b', 'c', 'd', 'e'] 10 4 4 rfl (by decide) (by decide) (by decide)
      (by decide) (by decide) (by decide) (by decide) (by decide)).1,
   ((C9_hard_wrap ['a', 'b', 'c', 'd', 'e'] 10 4 4 rfl (by decide) (by decide) (by decide)
      (by decide) (by decide) (by decide) (by decide) (by decide)).2.2.2.2.2 rfl).1⟩

/-! ### Paging keeps the sidebar offset and the index together -/

theorem handle_DOWN {F : Type} (E : Env F) (s : State) (rest : List Int)
    (hk : s.keys = KEY_DOWN :: rest) :
    handle_user_input E s = .ok { s with keys := rest, offset := toInt (s.offset + 1) } := by
  simp [handle_user_input, hk, KEY_NPAGE, KEY_F, KEY_F0, KEY_DOWN, KEY_UP, KEY_q, KEY_PPAGE]

theorem handle_UP {F : Type} (E : Env F) (s : State) (rest : List Int)
    (hk : s.keys = KEY_UP :: rest) :
    handle_user_input E s
      = .ok (if s.offset > 0 then { s with keys := rest, offset := toInt (s.offset - 1) }
             else { s with keys := rest }) := by
  simp [handle_user_input, hk, KEY_NPAGE, KEY_F, KEY_F0, KEY_DOWN, KEY_UP, KEY_q, KEY_PPAGE]

/-- On a list of at least two posts the page-down update of `sidebar_offset`
yields the same value as the update of `index`, when both start equal. -/
theorem sync_next {n : Nat} {i : Int} (hn2 : 2 ≤ n) (hn : (n : Int) ≤ INT_MAX)
    (h0 : 0 ≤ i) (h1 : i < n) :
    (if toSize i ≤ sizeSub n 2 then toInt (i + 1) else 0)
      = toInt ((toSize (toInt (i + 1)) % n : Nat)) := by
  rw [next_index_eq hn h0 h1]
  unfold INT_MAX at hn
  have e1 : toSize i = i.toNat := toSize_eq_toNat h0 (by omega)
  have e2 : sizeSub n 2 = n - 2 := sizeSub_eq_sub hn2 (by omega)
  rw [e1, e2]
  by_cases hlt : i + 1 < n
  · have hc : i.toNat ≤ n - 2 := by omega
    have e3 : toInt (i + 1) = i + 1 := toInt_eq_self (by unfold IsInt; omega)
    rw [if_pos hc, e3, Int.emod_eq_of_lt (by omega) hlt]
  · have hc : ¬ i.toNat ≤ n - 2 := by omega
    have e4 : i + 1 = (n : Int) := by omega
    rw [if_neg hc, e4, Int.emod_self]

/-- The page-up update of `sidebar_offset` yields the same value as the update
of `index`, when both start equal at a position of the list. -/
theorem sync_prev {n : Nat} {i : Int} (hn : (n : Int) ≤ INT_MAX) (h0 : 0 ≤ i) (h1 : i < n) :
    (if i > 0 then toInt (i - 1) else toInt (sizeSub n 1 : Nat))
      = (if toInt (i - 1) < 0 then toInt (sizeSub n 1 : Nat) else toInt (i - 1)) := by
  unfold INT_MAX at hn
  have e1 : toInt (i - 1) = i - 1 := toInt_eq_self (by unfold IsInt; omega)
  rw [e1]
  clear e1
  by_cases hi : i > 0
  · have h2 : ¬ (i - 1 < 0) := by omega
    rw [if_pos hi, if_neg h2]
  · have h2 : i - 1 < 0 := by omega
    rw [if_neg hi, if_pos h2]

theorem handle_user_input_sync {F : Type} (E : Env F) (posts : List Post)
    (hn2 : 2 ≤ posts.length) (hn : (posts.length : Int) ≤ INT_MAX)
    (s s2 : State) (ch : Int) (rest : List Int) (hk : s.keys = ch :: rest)
    (hch : ch = KEY_NPAGE ∨ ch = KEY_PPAGE ∨ ch = KEY_DOWN ∨ ch = KEY_UP)
    (h : handle_user_input E s = .ok s2) (hinv : SyncInv posts s) : SyncInv posts s2 := by
  obtain ⟨hp, h0, h1, hso⟩ := hinv
  have hpos : (0 : Int) < posts.length := by omega
  rcases hch with hc | hc | hc | hc
  · subst hc
    rw [handle_NPAGE E s rest hk] at h
    unfold case_NPAGE at h
    simp only [] at h
    have hne : posts.length ≠ 0 := by omega
    rw [hp, if_neg hne] at h
    cases h
    refine ⟨rfl, ?_, ?_, ?_⟩
    · simp only []
      rw [next_index_eq hn h0 h1]
      exact Int.emod_nonneg _ (by omega)
    · simp only []
      rw [next_index_eq hn h0 h1]
      exact Int.emod_lt_of_pos _ hpos
    · simp only []
      rw [hso]
      exact sync_next hn2 hn h0 h1
  · subst hc
    rw [handle_PPAGE E s rest hk] at h
    unfold case_PPAGE at h
    simp only [] at h
    rw [hp] at h
    cases h
    have hb := prev_index_bounds hn (by omega : 0 < posts.length) h0 h1
    refine ⟨rfl, hb.1, hb.2, ?_⟩
    simp only []
    rw [hso]
    exact sync_prev hn h0 h1
  · subst hc
    rw [handle_DOWN E s rest hk] at h
    cases h
    exact ⟨hp, h0, h1, hso⟩
  · subst hc
    rw [handle_UP E s rest hk] at h
    cases h
    split
    · exact ⟨hp, h0, h1, hso⟩
    · exact ⟨hp, h0, h1, hso⟩

theorem nav_reachable_sync {F : Type} (E : Env F) (posts : List Post)
    (hn2 : 2 ≤ posts.length) (hn : (posts.length : Int) ≤ INT_MAX)
    (s : State) (hr : NavReachable E posts s) : SyncInv posts s := by
  induction hr with
  | start keys calls token_file =>
    refine ⟨rfl, le_refl _, ?_, rfl⟩
    simp only [initial]
    omega
  | step s s2 ch rest _ hk hch hstep ih =>
    exact handle_user_input_sync E posts hn2 hn s s2 ch rest hk hch hstep ih

/-- One page-down from the initial state on a single post. -/
theorem single_post_page_down {F : Type} (E : Env F) (p : Post) (rest : List Int)
    (calls : Nat) (token_file : Bool) :
    handle_user_input E (initial [p] (KEY_NPAGE :: rest) calls token_file)
      = .ok { initial [p] rest calls token_file with sidebar_offset := 1 } := by
  rw [handle_NPAGE E _ rest rfl]
  have hcond : toSize 0 ≤ sizeSub ([p] : List Post).length 2 := by
    rw [toSize_zero]
    exact Nat.zero_le _
  have hidx : toInt ((toSize (toInt (0 + 1)) % ([p] : List Post).length : Nat)) = 0 := by
    simp only [List.length_singleton, Nat.mod_one, Nat.cast_zero]
    exact toInt_zero
  simp only [initial, case_NPAGE, if_pos hcond, hidx]
  simp [toInt_one]

/-- Claim C11: handling the refresh key sets `index` and `offset` to 0 but
leaves `sidebar_offset` as it was: for every prior state and every non-empty
returned list the handler returns with index = 0, offset = 0 and the old
`sidebar_offset`.  After two page-downs on the posts A, B, C (sidebar_offset 2)
a refresh returns with sidebar_offset = 2, not 0. -/
theorem C11_refresh_keeps_sidebar_offset {F : Type} (E : Env F) (s : State) (p : Post)
    (ps : List Post) (rest : List Int) :
    (∃ s1, handle_user_input { E with fetch_and_parse_posts := fun _ => p :: ps }
          { s with keys := KEY_F 5 :: rest } = .ok s1
        ∧ s1.posts = p :: ps ∧ s1.index = 0 ∧ s1.offset = 0
        ∧ s1.sidebar_offset = s.sidebar_offset)
    ∧ run demoEnv 3 (initial postsABC [KEY_NPAGE, KEY_NPAGE, KEY_F 5] 0 false)
      = .ok { posts := [mkPost 'X'], index := 0, offset := 0, sidebar_offset := 2,
              current_state := WindowState.BLOG_VIEW, popup_window := false,
              keys := [], calls := 1, token_file := false } := by
  constructor
  · refine ⟨{ s with posts := p :: ps, index := 0, offset := 0, keys := rest,
                     calls := s.calls + 1 }, ?_, rfl, rfl, rfl, rfl⟩
    rw [handle_F5 _ _ rest rfl]
    simp [case_F5, toSize_zero]
  · decide

/-- Claim C12: on a fixed list of n >= 2 posts whose positions fit `int`, in
every state reached from the initial state by page-down, page-up, down and up
keys, `sidebar_offset` equals `index`.  On a list of one post this fails: one
page-down leaves `index` at 0 and moves `sidebar_offset` to 1, because
`posts.size() - 2` wraps around as an unsigned value. -/
theorem C12_paging_keeps_sidebar_with_index {F : Type} (E : Env F) (posts : List Post)
    (p : Post) (hn2 : 2 ≤ posts.length) (hn : (posts.length : Int) ≤ INT_MAX)
    (s : State) (hr : NavReachable E posts s) :
    s.sidebar_offset = s.index
    ∧ (∃ s1, NavReachable E [p] s1 ∧ s1.index = 0 ∧ s1.sidebar_offset = 1
        ∧ s1.sidebar_offset ≠ s1.index) := by
  constructor
  · exact (nav_reachable_sync E posts hn2 hn s hr).2.2.2
  · refine ⟨{ initial [p] [] 0 false with sidebar_offset := 1 }, ?_, rfl, rfl, ?_⟩
    · exact NavReachable.step (initial [p] [KEY_NPAGE] 0 false) _ KEY_NPAGE []
        (NavReachable.start [KEY_NPAGE] 0 false) rfl (Or.inl rfl)
        (single_post_page_down E p [] 0 false)
    · simp [initial]

/-- Witness of C12: the posts A, B, C after page-down, page-down, page-up,
down. -/
theorem C12_paging_keeps_sidebar_with_index_witness :
    demoAfterPaging.sidebar_offset = demoAfterPaging.index
    ∧ (∃ s1, NavReachable demoEnv [mkPost 'A'] s1 ∧ s1.index = 0 ∧ s1.sidebar_offset = 1
        ∧ s1.sidebar_offset ≠ s1.index) :=
  C12_paging_keeps_sidebar_with_index demoEnv postsABC (mkPost 'A') (by decide) (by decide)
    demoAfterPaging
    (NavReachable.step _ _ KEY_DOWN []
      (NavReachable.step _ _ KEY_PPAGE [KEY_DOWN]
        (NavReachable.step _ _ KEY_NPAGE [KEY_PPAGE, KEY_DOWN]
          (NavReachable.step _ _ KEY_NPAGE [KEY_NPAGE, KEY_PPAGE, KEY_DOWN]
            (NavReachable.start [KEY_NPAGE, KEY_NPAGE, KEY_PPAGE, KEY_DOWN] 0 false)
            rfl (Or.inl rfl)
            (by decide : handle_user_input demoEnv _ = .ok
              { posts := postsABC, index := 1, offset := 0, sidebar_offset := 1,
                current_state := WindowState.BLOG_VIEW, popup_window := false,
                keys := [KEY_NPAGE, KEY_PPAGE, KEY_DOWN], calls := 0, token_file := false }))
          rfl (Or.inl rfl)
          (by decide : handle_user_input demoEnv _ = .ok
            { posts := postsABC, index := 2, offset := 0, sidebar_offset := 2,
              current_state := WindowState.BLOG_VIEW, popup_window := false,
              keys := [KEY_PPAGE, KEY_DOWN], calls := 0, token_file := false }))
        rfl (Or.inr (Or.inl rfl))
        (by decide : handle_user_input demoEnv _ = .ok
          { posts := postsABC, index := 1, offset := 0, sidebar_offset := 1,
            current_state := WindowState.BLOG_VIEW, popup_window := false,
            keys := [KEY_DOWN], calls := 0, token_file := false }))
      rfl (Or.inr (Or.inr (Or.inl rfl)))
      (by decide : handle_user_input demoEnv _ = .ok demoAfterPaging))

end MiniBlog
